import Mathlib

/-!
Verification of the Trace Reconstruction & Search Engine of the aiai-widget
dashboard backend (`app/services/jaeger_service.py`, data model in
`app/models/traces.py`).

Modelling conventions:
* Raw Jaeger JSON objects are modelled structurally.  A field that the Python
  code reads with `d.get(k)` / `d.get(k, default)` is an `Option`; a field read
  with `d[k]` (which raises `KeyError` when absent) is likewise an `Option`,
  and the fallible read is modelled in `Except Unit` (the error standing for a
  raised `KeyError`).
* Timestamps stay in microseconds (`Nat`).  The Python code converts
  microseconds to `datetime` via `datetime.fromtimestamp(us / 1_000_000)`;
  that conversion is a monotone function of the microsecond value, so ordering
  and min/max facts proved here transfer to the `datetime` values.
* Python's `sorted(spans, key=...)` is a stable sort by key; it is embedded as
  `List.insertionSort` with the non-strict key comparison, which is the stable
  sort by the same key (earlier input elements precede later ones on ties).
* Python dicts built by comprehensions are embedded as insertion-ordered
  association lists with overwrite-in-place semantics (`dict_insert`).
* `datetime.utcnow()` is modelled by an explicit `now` parameter (in
  microseconds); the two clock reads in `search_traces` are modelled by the
  same value.
-/

namespace AiaiWidget

deriving instance DecidableEq for Except

/-- A JSON tag value as used by the code: booleans, strings and integers are
the shapes the parser inspects (`error == True`, string comparison, `str`). -/
inductive TagValue where
  | vBool (b : Bool)
  | vStr (s : String)
  | vInt (n : Int)
  deriving DecidableEq

/-- One entry of a span's `tags` (or of a log's `fields`) list.  The Python
code reads `t.get("key")` in `_extract_tag` but `t["key"]` / `t["value"]`
in `_parse_spans_to_steps`, so both fields are optional here. -/
structure RawTag where
  key : Option String
  value : Option TagValue
  deriving DecidableEq

/-- One entry of a span's `references` list; all reads use `.get`. -/
structure RawRef where
  refType : Option String
  spanID : Option String
  deriving DecidableEq

/-- One entry of a span's `logs` list; `log.get("fields", [])`. -/
structure RawLog where
  fields : List RawTag
  deriving DecidableEq

/-- A raw Jaeger span.  `spanID` is read both with `s["spanID"]`
(in `_find_root_span`, fallible) and `span.get("spanID")` (step creation). -/
structure RawSpan where
  spanID : Option String
  operationName : Option String
  startTime : Option Nat
  duration : Option Nat
  tags : List RawTag
  logs : List RawLog
  references : List RawRef
  deriving DecidableEq

/-- One element of the `data` list of a Jaeger API response:
`traceID` read with `.get("traceID", "")`, `spans` with `.get("spans", [])`.
The `processes` table is read but unused by step derivation; it is omitted. -/
structure RawTraceData where
  traceID : Option String
  spans : List RawSpan
  deriving DecidableEq

/-- StepStatus from `app/models/traces.py`. -/
inductive StepStatus where
  | OK
  | FAILED
  | SKIPPED
  | IN_PROGRESS
  deriving DecidableEq, Inhabited

/-- A Python dict with string keys, as an insertion-ordered association list
with unique keys. -/
abbrev Dict := List (String × TagValue)

/-- Python dict assignment `d[k] = v`: overwrite in place if the key exists,
else append. -/
def dict_insert (d : Dict) (k : String) (v : TagValue) : Dict :=
  if d.any (fun p => p.1 == k) then
    d.map (fun p => if p.1 == k then (k, v) else p)
  else d ++ [(k, v)]

/-- Python `d.get(k)` on a dict built by `dict_insert`. -/
def dict_get (d : Dict) (k : String) : Option TagValue :=
  (d.find? (fun p => p.1 == k)).map (fun p => p.2)

/-- Python `k in d`. -/
def dict_contains (d : Dict) (k : String) : Bool :=
  d.any (fun p => p.1 == k)

/-- The dict comprehension of lines 249 and 257:
`{t["key"]: t["value"] for t in entries}`.  The subscript reads raise
(`Except.error ()`) on an entry missing either field. -/
def build_dict : List RawTag → Except Unit Dict :=
  go []
where
  /-- Left fold threading the partially built dict, raising at the first
  malformed entry, as the Python comprehension does. -/
  go (acc : Dict) : List RawTag → Except Unit Dict
    | [] => .ok acc
    | t :: rest =>
      match t.key, t.value with
      | some k, some v => go (dict_insert acc k v) rest
      | _, _ => .error ()

/-- Python truthiness of an optional tag value (`None`, `False`, `0` and the
empty string are falsy). -/
def truthy : Option TagValue → Bool
  | none => false
  | some (.vBool b) => b
  | some (.vStr s) => s ≠ ""
  | some (.vInt n) => n ≠ 0

/-- Python `a or b` on optional tag values. -/
def py_or (a b : Option TagValue) : Option TagValue :=
  if truthy a then a else b

/-- Derived per-span step (TraceStep of `app/models/traces.py`).  Timestamps
are kept in microseconds; `error` keeps the raw tag value the Python code
assigns to the field.  `children` is never set by the reconstruction and is
omitted. -/
structure TraceStep where
  name : String
  status : StepStatus
  start_time : Nat
  end_time : Nat
  duration_ms : Nat
  error : Option TagValue
  data : Dict
  span_id : Option String
  deriving DecidableEq, Inhabited

/-- Reconstructed trace (TraceResponse of `app/models/traces.py`). -/
structure TraceResponse where
  request_id : String
  trace_id : String
  timestamp : Nat
  status : StepStatus
  user_id : Option String
  duration_ms : Nat
  steps : List TraceStep
  service : String
  operation : Option String
  deriving DecidableEq, Inhabited

/-- Search parameters (TraceSearchParams of `app/models/traces.py`), with
datetimes as microsecond epochs. -/
structure TraceSearchParams where
  start_time : Option Int
  end_time : Option Int
  status : Option StepStatus
  user_id : Option String
  limit : Nat
  operation : Option String
  deriving DecidableEq

/-- Search result (TraceSearchResult of `app/models/traces.py`). -/
structure TraceSearchResult where
  total : Nat
  traces : List TraceResponse
  has_more : Bool
  deriving DecidableEq

/-- Tag-based status derivation, lines 246-252: `error == True` or
`otel.status_code == "ERROR"` makes the step failed, with the message
preferring `otel.status_description` over `error.message`. -/
def status_from_tags (tags : Dict) : StepStatus × Option TagValue :=
  if dict_get tags "error" = some (.vBool true)
      ∨ dict_get tags "otel.status_code" = some (.vStr "ERROR") then
    (.FAILED, py_or (dict_get tags "otel.status_description")
      (dict_get tags "error.message"))
  else (.OK, none)

/-- One iteration of the log loop, lines 256-260: a log whose fields contain
an `error` or `exception` key upgrades the status to failed and fills the
message only if it is still falsy. -/
def apply_log (acc : StepStatus × Option TagValue) (log_fields : Dict) :
    StepStatus × Option TagValue :=
  if dict_contains log_fields "error" ∨ dict_contains log_fields "exception" then
    (.FAILED, py_or (py_or acc.2 (dict_get log_fields "message"))
      (dict_get log_fields "error"))
  else acc

/-- Effectful map over a list, stopping at the first raised error
(the semantics of a Python for loop that may raise per element). -/
def map_except (f : α → Except Unit β) : List α → Except Unit (List β)
  | [] => .ok []
  | a :: l => do
    let b ← f a
    let bs ← map_except f l
    .ok (b :: bs)

/-- Body of the per-span loop of `_parse_spans_to_steps` (lines 238-271):
build the tag dict (fallible), build each log's field dict (fallible, built
for every log before its error keys are inspected), derive the status, and
assemble the TraceStep. -/
def span_to_step (span : RawSpan) : Except Unit TraceStep := do
  let tags ← build_dict span.tags
  let log_dicts ← map_except (fun log => build_dict log.fields) span.logs
  let sm := log_dicts.foldl apply_log (status_from_tags tags)
  .ok
    { name := span.operationName.getD "unknown"
      status := sm.1
      start_time := span.startTime.getD 0
      end_time := span.startTime.getD 0 + span.duration.getD 0
      duration_ms := span.duration.getD 0 / 1000
      error := sm.2
      data := tags
      span_id := span.spanID }

/-- Sort key of line 236: `s.get("startTime", 0)`. -/
def start_key (s : RawSpan) : Nat :=
  s.startTime.getD 0

/-- Non-strict comparison on the sort key; Python's stable `sorted` is
`insertionSort` under this relation. -/
def span_le (a b : RawSpan) : Prop :=
  start_key a ≤ start_key b

instance : DecidableRel span_le :=
  fun a b => inferInstanceAs (Decidable (start_key a ≤ start_key b))

instance : IsTotal RawSpan span_le :=
  ⟨fun a b => Nat.le_total (start_key a) (start_key b)⟩

instance : IsTrans RawSpan span_le :=
  ⟨fun _ _ _ => Nat.le_trans⟩

/-- Strict comparison on the sort key (used to state uniqueness of the sorted
order when the keys are pairwise distinct). -/
def span_lt (a b : RawSpan) : Prop :=
  start_key a < start_key b

instance : IsAntisymm RawSpan span_lt :=
  ⟨fun _ _ h1 h2 => absurd h2 (Nat.lt_asymm h1)⟩

/-- JaegerService._parse_spans_to_steps, lines 227-273: stable-sort the spans
by start time, then derive one step per span.  The `processes` argument is
accepted and ignored, as in the source. -/
def parse_spans_to_steps (spans : List RawSpan) (_processes : Unit) :
    Except Unit (List TraceStep) :=
  map_except span_to_step (List.insertionSort span_le spans)

/-- The parent-reference selection of line 222: the references tagged with
refType CHILD_OF. -/
def child_of_refs (s : RawSpan) : List RawRef :=
  s.references.filter (fun r => r.refType == some "CHILD_OF")

/-- The root-scanning loop of `_find_root_span` (lines 217-225), given the
prebuilt span-id set: return the first span with no references, or whose
first CHILD_OF reference does not name an id inside the set (a missing
`spanID` on the reference also counts as outside the set, as in Python
`None not in span_ids`). -/
def find_root_loop (span_ids : List String) : List RawSpan → Option RawSpan
  | [] => none
  | span :: rest =>
    if span.references = [] then some span
    else
      match child_of_refs span with
      | [] => some span
      | r :: _ =>
        match r.spanID with
        | some i => if i ∈ span_ids then find_root_loop span_ids rest else some span
        | none => some span

/-- JaegerService._find_root_span, lines 214-225.  Building the id set with
`s["spanID"]` raises on any span missing its id. -/
def find_root_span (spans : List RawSpan) : Except Unit (Option RawSpan) := do
  let span_ids ← map_except
    (fun s => match s.spanID with
      | some i => .ok i
      | none => .error ()) spans
  .ok (find_root_loop span_ids spans)

/-- The status-aggregation loop of `_parse_trace`, lines 190-195: failed as
soon as some step is failed, else ok. -/
def overall_status : List TraceStep → StepStatus
  | [] => .OK
  | s :: rest => if s.status = .FAILED then .FAILED else overall_status rest

/-- JaegerService._extract_tag, lines 275-281: first tag whose `key` matches,
its `value` rendered with `str` (so a missing value renders as "None"). -/
def extract_tag (span : RawSpan) (tag_name : String) : Option String :=
  (span.tags.find? (fun t => t.key == some tag_name)).map
    (fun t =>
      match t.value with
      | none => "None"
      | some (.vBool b) => if b then "True" else "False"
      | some (.vStr s) => s
      | some (.vInt n) => toString n)

/-- Python `a or b` where `a` is an optional string and `b` a string
(line 182: empty strings are falsy). -/
def py_or_str (a : Option String) (b : String) : String :=
  match a with
  | some s => if s = "" then b else s
  | none => b

/-- Python `a or b` on two optional strings (line 185). -/
def py_or_str_opt (a b : Option String) : Option String :=
  match a with
  | some s => if s = "" then b else a
  | none => b

/-- Trace assembly, lines 181-212: identity extraction from the root span,
status aggregation, min/max timing over the steps, and construction of the
TraceResponse.  The `min`/`max` generators of lines 198-199 are folds over a
non-empty step list; the Python fallback for an empty step list
(`datetime.utcnow()`) is unreachable there and modelled as 0.  Every step
carries an end time (a truthy datetime), so the `if s.end_time` filter of
line 199 keeps all steps.  The duration division keeps microsecond
arithmetic exact where Python rounds through floats. -/
def assemble_trace (service_name trace_id : String) (root_span : RawSpan)
    (steps : List TraceStep) : TraceResponse :=
  let start_time :=
    match steps with
    | [] => 0
    | s :: rest => rest.foldl (fun m x => min m x.start_time) s.start_time
  let end_time :=
    match steps with
    | [] => start_time
    | s :: rest => rest.foldl (fun m x => max m x.end_time) s.end_time
  { request_id := py_or_str (extract_tag root_span "request_id") trace_id
    trace_id := trace_id
    timestamp := start_time
    status := overall_status steps
    user_id := py_or_str_opt (extract_tag root_span "user_id")
      (extract_tag root_span "user")
    duration_ms := (end_time - start_time) / 1000
    steps := steps
    service := service_name
    operation := root_span.operationName }

/-- JaegerService._parse_trace, lines 155-212, applied to the `data` list of
the Jaeger response (`jaeger_response.get("data", [])`; a missing `data` key
defaults to the empty list).  `Except.ok none` is the NotFound result;
`Except.error ()` models a raised KeyError. -/
def parse_trace (service_name : String) (data : List RawTraceData) :
    Except Unit (Option TraceResponse) :=
  match data with
  | [] => .ok none
  | trace_data :: _ =>
    match trace_data.spans with
    | [] => .ok none
    | s0 :: rest => do
      let root0 ← find_root_span (s0 :: rest)
      let steps ← parse_spans_to_steps (s0 :: rest) ()
      .ok (some (assemble_trace service_name (trace_data.traceID.getD "")
        (root0.getD s0) steps))

/-- The status `continue` of line 110: `params.status and
trace.status != params.status` (every status enum value is truthy). -/
def status_drops (params : TraceSearchParams) (trace : TraceResponse) : Bool :=
  match params.status with
  | some st => trace.status ≠ st
  | none => false

/-- The user `continue` of line 113: `params.user_id and
trace.user_id != params.user_id` (an empty user filter is falsy and ignored). -/
def user_drops (params : TraceSearchParams) (trace : TraceResponse) : Bool :=
  match params.user_id with
  | some u => u ≠ "" ∧ trace.user_id ≠ some u
  | none => false

/-- The client-side filter loop of `search_traces`, lines 105-115: each raw
trace of the backend page is reconstructed (wrapped as a singleton `data`
list); NotFound results are skipped; a present status filter drops traces of
another status; a present, non-empty (truthy) user filter drops traces of
another user.  Page order is preserved. -/
def filter_traces (service_name : String) (params : TraceSearchParams) :
    List RawTraceData → Except Unit (List TraceResponse)
  | [] => .ok []
  | trace_data :: page => do
    let trace? ← parse_trace service_name [trace_data]
    let kept :=
      match trace? with
      | none => none
      | some trace =>
        if status_drops params trace then none
        else if user_drops params trace then none
        else some trace
    let tl ← filter_traces service_name params page
    .ok
      (match kept with
       | none => tl
       | some t => t :: tl)

/-- The result assembly of `search_traces`, lines 105-121: the post-filter
list gives `total` (its full length), the returned `traces` (truncated to the
requested limit) and `has_more` (full length exceeds the limit). -/
def search_traces (service_name : String) (params : TraceSearchParams)
    (page : List RawTraceData) : Except Unit TraceSearchResult := do
  let traces ← filter_traces service_name params page
  .ok
    { total := traces.length
      traces := traces.take params.limit
      has_more := decide (traces.length > params.limit) }

/-- The upstream query parameters of `search_traces`, lines 76-95.  `now` is
the value of `datetime.utcnow()` in microseconds; the default end is `now`,
the default start is `now` minus one hour (not the end minus one hour).  An
`operation` parameter is attached only when truthy (non-empty). -/
structure JaegerQuery where
  service : String
  limit : Nat
  endUs : Int
  startUs : Int
  operation : Option String
  deriving DecidableEq

/-- Build the Jaeger query parameters, lines 76-95. -/
def build_query_params (service_name : String) (now : Int)
    (params : TraceSearchParams) : JaegerQuery :=
  { service := service_name
    limit := params.limit
    endUs :=
      match params.end_time with
      | some e => e
      | none => now
    startUs :=
      match params.start_time with
      | some s => s
      | none => now - 3600000000
    operation :=
      match params.operation with
      | some o => if o = "" then none else some o
      | none => none }

/-- Extract the trace from a successful single-trace reconstruction
(used to name concrete reconstruction results in witness statements). -/
def trace_of (e : Except Unit (Option TraceResponse)) : TraceResponse :=
  match e with
  | .ok (some t) => t
  | _ => default

/-- Extract the step from a successful per-span derivation (used to name
concrete steps in witness statements). -/
def step_of (e : Except Unit TraceStep) : TraceStep :=
  match e with
  | .ok st => st
  | .error _ => default

/-- Extract the result from a successful search (used to name concrete search
results in witness statements). -/
def result_of (e : Except Unit TraceSearchResult) : TraceSearchResult :=
  match e with
  | .ok r => r
  | .error _ => ⟨0, [], false⟩

/-- Sample span that reconstructs to a failed step (an `error = True` tag). -/
def sample_failed_span (i : String) : RawSpan :=
  { spanID := some i, operationName := some ("op_" ++ i),
    startTime := some 1000, duration := some 1500,
    tags := [⟨some "error", some (.vBool true)⟩], logs := [], references := [] }

/-- Sample span that reconstructs to an ok step. -/
def sample_ok_span (i : String) : RawSpan :=
  { spanID := some i, operationName := some ("op_" ++ i),
    startTime := some 2000, duration := some 100,
    tags := [], logs := [], references := [] }

/-- Raw trace blob whose single span carries an error tag. -/
def failed_trace_data (t : String) : RawTraceData :=
  ⟨some t, [sample_failed_span "s"]⟩

/-- Raw trace blob whose single span carries no error signal. -/
def ok_trace_data (t : String) : RawTraceData :=
  ⟨some t, [sample_ok_span "s"]⟩

/-- Backend page of five raw traces of which exactly three reconstruct to
status failed (the C1 scenario). -/
def page_c1 : List RawTraceData :=
  [failed_trace_data "t1", failed_trace_data "t2", ok_trace_data "t3",
   failed_trace_data "t4", ok_trace_data "t5"]

/-- Search parameters with status filter failed and limit 2 (the C1
scenario). -/
def params_c1 : TraceSearchParams :=
  { start_time := none, end_time := none, status := some .FAILED,
    user_id := none, limit := 2, operation := none }

/-- Search parameters with an explicit end time and no start time (the C2
counterexample). -/
def params_c2 : TraceSearchParams :=
  { start_time := none, end_time := some 0, status := none,
    user_id := none, limit := 20, operation := none }

/-- Search parameters with neither time bound (the C2 default-window case). -/
def params_default_window : TraceSearchParams :=
  { start_time := none, end_time := none, status := none,
    user_id := none, limit := 20, operation := none }

/-- Span whose tags list contains an entry missing its `key` and `value`
(the C3 failing input: the dict comprehension of line 249 raises KeyError). -/
def bad_tag_span : RawSpan :=
  { spanID := some "x", operationName := some "op_x", startTime := some 1000,
    duration := some 10, tags := [⟨none, none⟩], logs := [], references := [] }

/-- Raw trace blob containing the malformed-tag span. -/
def bad_tag_trace_data : RawTraceData :=
  ⟨some "t_bad", [bad_tag_span]⟩

/-- Span missing its `spanID` (the `s["spanID"]` read of line 216 raises
KeyError; C6 counterexample input). -/
def no_id_span_c6 : RawSpan :=
  { spanID := none, operationName := some "op_noid6", startTime := some 5,
    duration := some 5, tags := [], logs := [], references := [] }

/-- A second span missing its `spanID` (C7 counterexample input). -/
def no_id_span_c7 : RawSpan :=
  { spanID := none, operationName := some "op_noid7", startTime := some 7,
    duration := some 7, tags := [], logs := [], references := [] }

/-- Raw trace blob with a non-empty span set whose span lacks a spanID. -/
def no_id_trace_data : RawTraceData :=
  ⟨some "t_noid", [no_id_span_c7]⟩

/-- First of two well-formed spans sharing a start time (C4 tie input). -/
def tie_span_a : RawSpan :=
  { spanID := some "a", operationName := some "op_a", startTime := some 100,
    duration := some 1, tags := [], logs := [], references := [] }

/-- Second of two well-formed spans sharing a start time (C4 tie input). -/
def tie_span_b : RawSpan :=
  { spanID := some "b", operationName := some "op_b", startTime := some 100,
    duration := some 1, tags := [], logs := [], references := [] }

/-- Span with a 1500 microsecond duration (C9 floor-division instance). -/
def span_1500 : RawSpan :=
  { spanID := some "d", operationName := some "op_d", startTime := some 0,
    duration := some 1500, tags := [], logs := [], references := [] }

/-- Two spans whose declared CHILD_OF parents point outside the span set
(C6 witness input: the first must be selected as root). -/
def orphan_span_a : RawSpan :=
  { spanID := some "oa", operationName := some "op_oa", startTime := some 10,
    duration := some 1, tags := [], logs := [],
    references := [⟨some "CHILD_OF", some "missing1"⟩] }

/-- Second orphan span, also with an out-of-set parent. -/
def orphan_span_b : RawSpan :=
  { spanID := some "ob", operationName := some "op_ob", startTime := some 20,
    duration := some 1, tags := [], logs := [],
    references := [⟨some "CHILD_OF", some "missing2"⟩] }

/-- Two spans that are each other's CHILD_OF parents, so no span qualifies
under the root predicate (C6 fallback witness input). -/
def cycle_span_a : RawSpan :=
  { spanID := some "ca", operationName := some "op_ca", startTime := some 10,
    duration := some 1, tags := [], logs := [],
    references := [⟨some "CHILD_OF", some "cb"⟩] }

/-- Second member of the reference cycle. -/
def cycle_span_b : RawSpan :=
  { spanID := some "cb", operationName := some "op_cb", startTime := some 20,
    duration := some 1, tags := [], logs := [],
    references := [⟨some "CHILD_OF", some "ca"⟩] }

/-- Raw trace blob carrying the reference cycle. -/
def cycle_trace_data : RawTraceData :=
  ⟨some "t_cyc", [cycle_span_a, cycle_span_b]⟩

/-- Well-formedness of a raw span: the fields the Python code reads with
raising subscripts are present (the span id, and both components of every
tag entry and of every log field entry). -/
def WellFormedSpan (s : RawSpan) : Prop :=
  s.spanID.isSome = true
    ∧ (∀ t ∈ s.tags, t.key.isSome = true ∧ t.value.isSome = true)
    ∧ (∀ lg ∈ s.logs, ∀ f ∈ lg.fields, f.key.isSome = true ∧ f.value.isSome = true)

instance (s : RawSpan) : Decidable (WellFormedSpan s) := by
  unfold WellFormedSpan
  infer_instance

/-! ### Helper lemmas -/

@[simp]
theorem ok_bind {ε α β : Type} (a : α) (f : α → Except ε β) :
    ((Except.ok a : Except ε α) >>= f) = f a := rfl

@[simp]
theorem error_bind {ε α β : Type} (e : ε) (f : α → Except ε β) :
    ((Except.error e : Except ε α) >>= f) = Except.error e := rfl

theorem map_except_ok_iff {α β : Type} {f : α → Except Unit β} :
    ∀ {l : List α} {l' : List β},
      map_except f l = .ok l' ↔ List.Forall₂ (fun a b => f a = .ok b) l l' := by
  intro l
  induction l with
  | nil =>
    intro l'
    constructor
    · intro h
      cases h
      exact .nil
    · intro h
      cases h
      rfl
  | cons a l ih =>
    intro l'
    constructor
    · intro h
      cases hb : f a with
      | error e => simp [map_except, hb] at h
      | ok b =>
        cases hl : map_except f l with
        | error e => simp [map_except, hb, hl] at h
        | ok bs =>
          simp [map_except, hb, hl] at h
          subst h
          exact .cons hb (ih.mp hl)
    · intro h
      cases h with
      | cons hb htl =>
        simp [map_except, hb, ih.mpr htl]

theorem map_except_ok_of_forall {α β : Type} {f : α → Except Unit β}
    {l : List α} (h : ∀ a ∈ l, ∃ b, f a = .ok b) :
    ∃ l', map_except f l = .ok l' := by
  induction l with
  | nil => exact ⟨[], rfl⟩
  | cons a l ih =>
    obtain ⟨b, hb⟩ := h a (List.mem_cons_self a l)
    obtain ⟨bs, hbs⟩ := ih (fun x hx => h x (List.mem_cons_of_mem _ hx))
    exact ⟨b :: bs, by simp [map_except, hb, hbs]⟩

theorem forall₂_mem_right {α β : Type} {P : α → β → Prop} {l : List α}
    {l' : List β} (h : List.Forall₂ P l l') :
    ∀ {y}, y ∈ l' → ∃ a ∈ l, P a y := by
  induction h with
  | nil =>
    intro y hy
    cases hy
  | cons hab htl ih =>
    intro y hy
    rcases List.mem_cons.mp hy with rfl | hy
    · exact ⟨_, List.mem_cons_self _ _, hab⟩
    · obtain ⟨a, ha, hp⟩ := ih hy
      exact ⟨a, List.mem_cons_of_mem _ ha, hp⟩

theorem forall₂_pairwise {α β : Type} {P : α → β → Prop} {R : α → α → Prop}
    {S : β → β → Prop} (hPS : ∀ a b x y, P a x → P b y → R a b → S x y) :
    ∀ {l : List α} {l' : List β},
      List.Forall₂ P l l' → l.Pairwise R → l'.Pairwise S := by
  intro l l' h
  induction h with
  | nil =>
    intro _
    exact List.Pairwise.nil
  | @cons a x l₀ l₀' hab htl ih =>
    intro hp
    rcases List.pairwise_cons.mp hp with ⟨hhead, htail⟩
    refine List.pairwise_cons.mpr ⟨?_, ih htail⟩
    intro y hy
    obtain ⟨b, hb, hPby⟩ := forall₂_mem_right htl hy
    exact hPS a b x y hab hPby (hhead b hb)

theorem overall_status_failed_iff {steps : List TraceStep} :
    overall_status steps = .FAILED ↔ ∃ s ∈ steps, s.status = .FAILED := by
  induction steps with
  | nil => simp [overall_status]
  | cons s rest ih =>
    by_cases hs : s.status = .FAILED
    · simp [overall_status, hs]
    · simp [overall_status, hs, ih]

theorem overall_status_ok_or_failed (steps : List TraceStep) :
    overall_status steps = .OK ∨ overall_status steps = .FAILED := by
  induction steps with
  | nil => exact .inl rfl
  | cons s rest ih =>
    by_cases hs : s.status = .FAILED
    · exact .inr (by simp [overall_status, hs])
    · simpa [overall_status, hs] using ih

theorem overall_status_ok_of {steps : List TraceStep}
    (h : ∀ s ∈ steps, s.status ≠ .FAILED) : overall_status steps = .OK := by
  rcases overall_status_ok_or_failed steps with hok | hf
  · exact hok
  · obtain ⟨s, hs, hfs⟩ := overall_status_failed_iff.mp hf
    exact absurd hfs (h s hs)

theorem build_dict_go_ok {ts : List RawTag}
    (h : ∀ t ∈ ts, t.key.isSome = true ∧ t.value.isSome = true) :
    ∀ acc, ∃ d, build_dict.go acc ts = .ok d := by
  induction ts with
  | nil => exact fun acc => ⟨acc, rfl⟩
  | cons t rest ih =>
    intro acc
    obtain ⟨hk, hv⟩ := h t (List.mem_cons_self t rest)
    obtain ⟨k, hk'⟩ := Option.isSome_iff_exists.mp hk
    obtain ⟨v, hv'⟩ := Option.isSome_iff_exists.mp hv
    obtain ⟨d, hd⟩ := ih (fun x hx => h x (List.mem_cons_of_mem _ hx))
      (dict_insert acc k v)
    exact ⟨d, by simp [build_dict.go, hk', hv', hd]⟩

theorem build_dict_ok {ts : List RawTag}
    (h : ∀ t ∈ ts, t.key.isSome = true ∧ t.value.isSome = true) :
    ∃ d, build_dict ts = .ok d :=
  build_dict_go_ok h []

theorem span_to_step_ok_inv {s : RawSpan} {st : TraceStep}
    (h : span_to_step s = .ok st) :
    st.start_time = start_key s
      ∧ st.end_time = start_key s + s.duration.getD 0
      ∧ st.duration_ms = s.duration.getD 0 / 1000
      ∧ st.name = s.operationName.getD "unknown"
      ∧ st.span_id = s.spanID := by
  cases h1 : build_dict s.tags with
  | error e => simp [span_to_step, h1] at h
  | ok tags =>
    cases h2 : map_except (fun log => build_dict log.fields) s.logs with
    | error e => simp [span_to_step, h1, h2] at h
    | ok lds =>
      simp [span_to_step, h1, h2] at h
      subst h
      exact ⟨rfl, rfl, rfl, rfl, rfl⟩

theorem span_to_step_ok_of_wf {s : RawSpan} (h : WellFormedSpan s) :
    ∃ st, span_to_step s = .ok st := by
  obtain ⟨-, htags, hlogs⟩ := h
  obtain ⟨tags, htags'⟩ := build_dict_ok htags
  obtain ⟨lds, hlds⟩ := map_except_ok_of_forall
    (f := fun log => build_dict log.fields)
    (fun lg hlg => build_dict_ok (hlogs lg hlg))
  refine ⟨{ name := s.operationName.getD "unknown",
            status := (List.foldl apply_log (status_from_tags tags) lds).1,
            start_time := s.startTime.getD 0,
            end_time := s.startTime.getD 0 + s.duration.getD 0,
            duration_ms := s.duration.getD 0 / 1000,
            error := (List.foldl apply_log (status_from_tags tags) lds).2,
            data := tags, span_id := s.spanID }, ?_⟩
  simp [span_to_step, htags', hlds]

theorem span_id_ok_inv {s : RawSpan} {i : String}
    (h : (match s.spanID with
      | some j => Except.ok j
      | none => (Except.error () : Except Unit String)) = .ok i) :
    s.spanID = some i := by
  cases hs : s.spanID with
  | none => rw [hs] at h; cases h
  | some j => rw [hs] at h; cases h; rfl

theorem find_root_span_ok_of_ids {spans : List RawSpan}
    (h : ∀ s ∈ spans, s.spanID.isSome = true) :
    ∃ ids, map_except (fun s : RawSpan => match s.spanID with
        | some i => Except.ok i
        | none => Except.error ()) spans = .ok ids
      ∧ find_root_span spans = .ok (find_root_loop ids spans) := by
  obtain ⟨ids, hids⟩ := map_except_ok_of_forall
    (f := fun s : RawSpan => match s.spanID with
      | some i => Except.ok i
      | none => Except.error ())
    (fun s hs => by
      obtain ⟨i, hi⟩ := Option.isSome_iff_exists.mp (h s hs)
      exact ⟨i, by simp [hi]⟩)
  exact ⟨ids, hids, by simp [find_root_span, hids]⟩

theorem find_root_loop_head {ids : List String} {s0 : RawSpan}
    {rest : List RawSpan}
    (h : ∀ r ∈ child_of_refs s0, ∀ i, r.spanID = some i → i ∉ ids) :
    find_root_loop ids (s0 :: rest) = some s0 := by
  by_cases hrefs : s0.references = []
  · simp [find_root_loop, hrefs]
  · cases hc : child_of_refs s0 with
    | nil => simp [find_root_loop, hrefs, hc]
    | cons r rs =>
      cases hid : r.spanID with
      | none => simp [find_root_loop, hrefs, hc, hid]
      | some i =>
        have hni : i ∉ ids := h r (hc ▸ List.mem_cons_self r rs) i hid
        simp [find_root_loop, hrefs, hc, hid, hni]

theorem find_root_span_first {s0 : RawSpan} {rest : List RawSpan}
    (hid : ∀ s ∈ s0 :: rest, s.spanID.isSome = true)
    (hout : ∀ r ∈ child_of_refs s0, ∀ i, r.spanID = some i →
      ∀ s ∈ s0 :: rest, s.spanID ≠ some i) :
    find_root_span (s0 :: rest) = .ok (some s0) := by
  obtain ⟨ids, hids, hroot⟩ := find_root_span_ok_of_ids hid
  have hf₂ := map_except_ok_iff.mp hids
  have hloop : find_root_loop ids (s0 :: rest) = some s0 := by
    refine find_root_loop_head (fun r hr i hri hin => ?_)
    obtain ⟨s, hs, hp⟩ := forall₂_mem_right hf₂ hin
    exact hout r hr i hri s hs (span_id_ok_inv hp)
  rw [hroot, hloop]

theorem parse_spans_to_steps_ok_of_wf {spans : List RawSpan}
    (h : ∀ s ∈ spans, WellFormedSpan s) :
    ∃ steps, parse_spans_to_steps spans () = .ok steps
      ∧ steps.length = spans.length := by
  obtain ⟨steps, hsteps⟩ := map_except_ok_of_forall
    (f := span_to_step)
    (fun s hs => span_to_step_ok_of_wf
      (h s ((List.mem_insertionSort span_le).mp hs)))
  refine ⟨steps, hsteps, ?_⟩
  have hlen := (map_except_ok_iff.mp hsteps).length_eq
  rw [← hlen, List.length_insertionSort]

theorem parse_spans_to_steps_sorted {spans : List RawSpan}
    {steps : List TraceStep} (h : parse_spans_to_steps spans () = .ok steps) :
    steps.Pairwise (fun a b => a.start_time ≤ b.start_time) := by
  have hf := map_except_ok_iff.mp h
  have hsorted : (List.insertionSort span_le spans).Pairwise span_le :=
    List.sorted_insertionSort span_le spans
  refine forall₂_pairwise (fun a b x y hax hby hab => ?_) hf hsorted
  rw [(span_to_step_ok_inv hax).1, (span_to_step_ok_inv hby).1]
  exact hab

theorem insertion_sort_eq_of_perm_of_distinct {l₁ l₂ : List RawSpan}
    (hp : l₁.Perm l₂)
    (hd : l₁.Pairwise (fun a b => start_key a ≠ start_key b)) :
    List.insertionSort span_le l₁ = List.insertionSort span_le l₂ := by
  have hperm : (List.insertionSort span_le l₁).Perm
      (List.insertionSort span_le l₂) :=
    (List.perm_insertionSort span_le l₁).trans
      (hp.trans (List.perm_insertionSort span_le l₂).symm)
  have hd₁ : (List.insertionSort span_le l₁).Pairwise
      (fun a b => start_key a ≠ start_key b) :=
    hd.perm (List.perm_insertionSort span_le l₁).symm (fun h => Ne.symm h)
  have hd₂ : (List.insertionSort span_le l₂).Pairwise
      (fun a b => start_key a ≠ start_key b) :=
    hd₁.perm hperm (fun h => Ne.symm h)
  have hs₁ : (List.insertionSort span_le l₁).Pairwise span_lt :=
    (List.Pairwise.and (List.sorted_insertionSort span_le l₁) hd₁).imp
      (fun h => Nat.lt_of_le_of_ne h.1 h.2)
  have hs₂ : (List.insertionSort span_le l₂).Pairwise span_lt :=
    (List.Pairwise.and (List.sorted_insertionSort span_le l₂) hd₂).imp
      (fun h => Nat.lt_of_le_of_ne h.1 h.2)
  exact List.eq_of_perm_of_sorted hperm hs₁ hs₂

theorem parse_trace_ok_some_inv {sn : String} {data : List RawTraceData}
    {t : TraceResponse} (h : parse_trace sn data = .ok (some t)) :
    ∃ td tl s0 rest root0 steps,
      data = td :: tl ∧ td.spans = s0 :: rest
        ∧ find_root_span (s0 :: rest) = .ok root0
        ∧ parse_spans_to_steps (s0 :: rest) () = .ok steps
        ∧ t = assemble_trace sn (td.traceID.getD "") (root0.getD s0) steps := by
  cases data with
  | nil => simp [parse_trace] at h
  | cons td tl =>
    cases hs : td.spans with
    | nil => simp [parse_trace, hs] at h
    | cons s0 rest =>
      cases h1 : find_root_span (s0 :: rest) with
      | error e => simp [parse_trace, hs, h1] at h
      | ok root0 =>
        cases h2 : parse_spans_to_steps (s0 :: rest) () with
        | error e => simp [parse_trace, hs, h1, h2] at h
        | ok steps =>
          simp [parse_trace, hs, h1, h2] at h
          exact ⟨td, tl, s0, rest, root0, steps, rfl, hs, h1, h2, h.symm⟩

theorem parse_trace_ok_of_wf {sn : String} {td : RawTraceData}
    {tl : List RawTraceData} (hne : td.spans ≠ [])
    (hwf : ∀ s ∈ td.spans, WellFormedSpan s) :
    ∃ t, parse_trace sn (td :: tl) = .ok (some t)
      ∧ t.steps.length = td.spans.length := by
  cases hs : td.spans with
  | nil => exact absurd hs hne
  | cons s0 rest =>
    rw [hs] at hwf
    obtain ⟨ids, hids, hroot⟩ := find_root_span_ok_of_ids
      (fun s h => (hwf s h).1)
    obtain ⟨steps, hsteps, hlen⟩ := parse_spans_to_steps_ok_of_wf hwf
    refine ⟨assemble_trace sn (td.traceID.getD "")
      ((find_root_loop ids (s0 :: rest)).getD s0) steps, ?_, ?_⟩
    · simp [parse_trace, hs, hroot, hsteps]
    · simpa [assemble_trace] using hlen

theorem filter_traces_cons_inv {sn : String} {p : TraceSearchParams}
    {td : RawTraceData} {page : List RawTraceData} {l : List TraceResponse}
    (h : filter_traces sn p (td :: page) = .ok l) :
    ∃ tr? tl, parse_trace sn [td] = .ok tr?
      ∧ filter_traces sn p page = .ok tl
      ∧ l = (match tr? with
        | none => tl
        | some trace =>
          if status_drops p trace then tl
          else if user_drops p trace then tl
          else trace :: tl) := by
  cases h1 : parse_trace sn [td] with
  | error e => simp [filter_traces, h1] at h
  | ok tr? =>
    cases h2 : filter_traces sn p page with
    | error e => simp [filter_traces, h1, h2] at h
    | ok tl =>
      refine ⟨tr?, tl, rfl, rfl, ?_⟩
      simp only [filter_traces, h1, h2, ok_bind] at h
      cases tr? with
      | none => cases h; rfl
      | some trace =>
        by_cases hsd : status_drops p trace = true
        · simp only [hsd, if_true] at h ⊢
          cases h
          rfl
        · by_cases hud : user_drops p trace = true
          · simp only [hsd, hud, if_true, if_false, Bool.false_eq_true] at h ⊢
            cases h
            rfl
          · simp only [hsd, hud, if_false, Bool.false_eq_true] at h ⊢
            cases h
            rfl

theorem filter_traces_length_le {sn : String} {p : TraceSearchParams} :
    ∀ {page : List RawTraceData} {l : List TraceResponse},
      filter_traces sn p page = .ok l → l.length ≤ page.length := by
  intro page
  induction page with
  | nil =>
    intro l h
    cases h
    simp
  | cons td page ih =>
    intro l h
    obtain ⟨tr?, tl, h1, h2, hl⟩ := filter_traces_cons_inv h
    have htl := ih h2
    subst hl
    cases tr? with
    | none => exact Nat.le_succ_of_le htl
    | some trace =>
      by_cases hsd : status_drops p trace = true
      · simpa [hsd] using Nat.le_succ_of_le htl
      · by_cases hud : user_drops p trace = true
        · simpa [hsd, hud] using Nat.le_succ_of_le htl
        · simpa [hsd, hud] using Nat.succ_le_succ htl

theorem search_traces_ok_inv {sn : String} {p : TraceSearchParams}
    {page : List RawTraceData} {res : TraceSearchResult}
    (h : search_traces sn p page = .ok res) :
    ∃ l, filter_traces sn p page = .ok l
      ∧ res.total = l.length ∧ res.traces = l.take p.limit
      ∧ res.has_more = decide (l.length > p.limit) := by
  cases h1 : filter_traces sn p page with
  | error e => simp [search_traces, h1] at h
  | ok l =>
    simp only [search_traces, h1, ok_bind] at h
    cases h
    exact ⟨l, rfl, rfl, rfl, rfl⟩

/-! ### Claim theorems -/

/-- C8: in every TraceSearchResult returned by search_traces, `total` equals
the count of traces remaining after client-side (status and user) filtering of
the backend page, `has_more` is true iff that post-filter count exceeds the
requested limit, and in that case the returned traces sequence is truncated to
exactly `limit` entries. -/
theorem C8_search_pagination_contract {sn : String} {p : TraceSearchParams}
    {page : List RawTraceData} {res : TraceSearchResult}
    (h : search_traces sn p page = .ok res) :
    (∀ l, filter_traces sn p page = .ok l → res.total = l.length)
      ∧ (res.has_more = true ↔ res.total > p.limit)
      ∧ (res.has_more = true → res.traces.length = p.limit) := by
  obtain ⟨l, hl, htotal, htraces, hmore⟩ := search_traces_ok_inv h
  refine ⟨?_, ?_, ?_⟩
  · intro l' hl'
    rw [hl'] at hl
    cases hl
    exact htotal
  · rw [hmore, htotal]
    exact decide_eq_true_iff
  · intro hm
    rw [hmore] at hm
    have hgt : l.length > p.limit := of_decide_eq_true hm
    rw [htraces, List.length_take]
    omega

/-- Witness for C8 at a concrete one-trace page. -/
theorem C8_witness :
    (result_of (search_traces "aiai" params_c1 [failed_trace_data "w8"])).total
      = 1 := by
  have hs : search_traces "aiai" params_c1 [failed_trace_data "w8"]
      = .ok (result_of (search_traces "aiai" params_c1 [failed_trace_data "w8"])) := rfl
  have h := (C8_search_pagination_contract hs).1
    [trace_of (parse_trace "aiai" [failed_trace_data "w8"])] rfl
  simpa using h

/-- C10 (implicit): because the backend-side query limit equals the requested
limit and client-side filtering only removes entries, a backend page of at
most `limit` raw traces yields `has_more = false`, `total` equal to the length
of the returned traces list, and an untruncated traces list. -/
theorem C10_small_page_no_truncation {sn : String} {p : TraceSearchParams}
    {page : List RawTraceData} {res : TraceSearchResult}
    (hpage : page.length ≤ p.limit) (h : search_traces sn p page = .ok res) :
    res.has_more = false ∧ res.total = res.traces.length
      ∧ (∀ l, filter_traces sn p page = .ok l → res.traces = l)
      ∧ (∀ now, (build_query_params sn now p).limit = p.limit) := by
  obtain ⟨l, hl, htotal, htraces, hmore⟩ := search_traces_ok_inv h
  have hle : l.length ≤ p.limit :=
    Nat.le_trans (filter_traces_length_le hl) hpage
  refine ⟨?_, ?_, ?_, fun now => rfl⟩
  · rw [hmore]
    exact decide_eq_false (by omega)
  · rw [htotal, htraces, List.take_of_length_le hle]
  · intro l' hl'
    rw [hl'] at hl
    cases hl
    rw [htraces, List.take_of_length_le hle]

/-- Witness for C10 at a concrete one-trace page with limit 20. -/
theorem C10_witness :
    (result_of (search_traces "aiai" params_default_window [ok_trace_data "wA"])).has_more
      = false := by
  have hs : search_traces "aiai" params_default_window [ok_trace_data "wA"]
      = .ok (result_of (search_traces "aiai" params_default_window [ok_trace_data "wA"])) := rfl
  have hp : ([ok_trace_data "wA"] : List RawTraceData).length
      ≤ params_default_window.limit := by decide
  exact (C10_small_page_no_truncation hp hs).1

/-- C1 counterexample: for the concrete backend page of 5 raw traces of which
exactly 3 survive the failed-status filter, a search with limit 2 returns
total = 3, not total = 2 as the claim states. -/
theorem C1_counterexample :
    page_c1.length = 5
      ∧ (match filter_traces "aiai" params_c1 page_c1 with
          | .ok l => l.length
          | .error _ => 0) = 3
      ∧ search_traces "aiai" params_c1 page_c1
          = .ok (result_of (search_traces "aiai" params_c1 page_c1))
      ∧ (result_of (search_traces "aiai" params_c1 page_c1)).total ≠ 2
      ∧ (result_of (search_traces "aiai" params_c1 page_c1)).total = 3 := by
  refine ⟨rfl, by decide, rfl, by decide, by decide⟩

/-- C1 amended: in the scenario (status filter failed, limit 2, backend page
of 5 raw traces of which 3 reconstruct to failed) the result has total = 3
(the full post-filter count), has_more = true and exactly 2 returned traces;
in general, when M traces survive client-side filtering, search returns
min(M, limit) traces and has_more = (M > limit). -/
theorem C1_amended_search_scenario :
    ((result_of (search_traces "aiai" params_c1 page_c1)).total = 3
      ∧ (result_of (search_traces "aiai" params_c1 page_c1)).has_more = true
      ∧ (result_of (search_traces "aiai" params_c1 page_c1)).traces.length = 2)
    ∧ (∀ (sn : String) (p : TraceSearchParams) (page : List RawTraceData)
        (l : List TraceResponse) (res : TraceSearchResult),
        filter_traces sn p page = .ok l → search_traces sn p page = .ok res →
        res.traces.length = min l.length p.limit
          ∧ (res.has_more = true ↔ l.length > p.limit)) := by
  constructor
  · exact ⟨by decide, by decide, by decide⟩
  · intro sn p page l res hf hs
    obtain ⟨l', hl', htotal, htraces, hmore⟩ := search_traces_ok_inv hs
    rw [hf] at hl'
    cases hl'
    constructor
    · rw [htraces, List.length_take]
      omega
    · rw [hmore]
      exact decide_eq_true_iff

/-- Witness for the general clause of the amended C1 at a one-trace page. -/
theorem C1_witness :
    (result_of (search_traces "aiai" params_c1 [failed_trace_data "w1"])).traces.length
      = 1 := by
  have h := (C1_amended_search_scenario.2 "aiai" params_c1 [failed_trace_data "w1"]
    [trace_of (parse_trace "aiai" [failed_trace_data "w1"])]
    (result_of (search_traces "aiai" params_c1 [failed_trace_data "w1"]))
    rfl rfl).1
  simpa using h

/-- C2 counterexample: with an explicit end time of 0 and no start time, at
current time 7200000000µs the query start is now − 1h = 3600000000, which is
not the end time minus one hour (−3600000000): the default start is clock
based, not end based. -/
theorem C2_counterexample :
    params_c2.start_time = none
      ∧ (build_query_params "aiai" 7200000000 params_c2).startUs
          ≠ (build_query_params "aiai" 7200000000 params_c2).endUs
            - 3600000000 := by
  exact ⟨rfl, by decide⟩

/-- C2 amended: with no end time the query end is the current time (as
microsecond epoch); with no start time the query start is the current time
minus one hour (which equals end − 1h only when the end also defaults); with
neither bound the window sent upstream is exactly the hour ending now. -/
theorem C2_amended_default_window (sn : String) (now : Int)
    (p : TraceSearchParams) :
    (p.end_time = none → (build_query_params sn now p).endUs = now)
      ∧ (p.start_time = none →
          (build_query_params sn now p).startUs = now - 3600000000)
      ∧ (p.start_time = none → p.end_time = none →
          (build_query_params sn now p).endUs = now
            ∧ (build_query_params sn now p).startUs
                = (build_query_params sn now p).endUs - 3600000000) := by
  refine ⟨fun he => ?_, fun hs => ?_, fun hs he => ⟨?_, ?_⟩⟩ <;>
    simp [build_query_params, *]

/-- Witness for C2 at parameters with neither bound given. -/
theorem C2_witness :
    (build_query_params "aiai" 7200000000 params_default_window).startUs
      = (build_query_params "aiai" 7200000000 params_default_window).endUs
        - 3600000000 :=
  ((C2_amended_default_window "aiai" 7200000000 params_default_window).2.2
    rfl rfl).2

/-- C3: the claim that reconstruction never raises for malformed tag shapes
fails on the code: a non-empty span set whose span has a tags entry missing
its key makes the dict comprehension of line 249 raise KeyError, so
reconstruction raises instead of yielding a Step. -/
theorem C3_malformed_tag_raises :
    bad_tag_trace_data.spans ≠ []
      ∧ bad_tag_span ∈ bad_tag_trace_data.spans
      ∧ bad_tag_span.tags = [⟨none, none⟩]
      ∧ parse_trace "aiai" [bad_tag_trace_data] = .error ()
      ∧ span_to_step bad_tag_span = .error () := by
  refine ⟨by decide, by decide, rfl, by decide, by decide⟩

/-- C9: every derived Step's duration_ms is the span's microsecond duration
floor-divided by 1000 (never rounded up). -/
theorem C9_duration_floor {s : RawSpan} {st : TraceStep}
    (h : span_to_step s = .ok st) :
    st.duration_ms = s.duration.getD 0 / 1000
      ∧ st.duration_ms * 1000 ≤ s.duration.getD 0 := by
  have h1 := (span_to_step_ok_inv h).2.2.1
  exact ⟨h1, by rw [h1]; exact Nat.div_mul_le_self _ 1000⟩

/-- Witness for C9: a span with duration 1500µs yields duration_ms = 1. -/
theorem C9_witness :
    (step_of (span_to_step span_1500)).duration_ms = 1 := by
  have h := (C9_duration_floor (s := span_1500) rfl).1
  exact h.trans (by decide)

/-- C5: a reconstructed Trace's status is failed iff at least one of its Steps
is failed, and is ok otherwise; the aggregation maps any step list without a
failed step (in particular all skipped/in-progress/ok) to ok. -/
theorem C5_status_aggregation :
    (∀ (sn : String) (data : List RawTraceData) (t : TraceResponse),
        parse_trace sn data = .ok (some t) →
        ((t.status = .FAILED ↔ ∃ s ∈ t.steps, s.status = .FAILED)
          ∧ (t.status = .FAILED ∨ t.status = .OK)))
      ∧ (∀ steps : List TraceStep,
          (∀ s ∈ steps, s.status = .OK ∨ s.status = .SKIPPED
            ∨ s.status = .IN_PROGRESS) →
          overall_status steps = .OK) := by
  constructor
  · intro sn data t h
    obtain ⟨td, tl, s0, rest, root0, steps, -, -, -, hsteps, ht⟩ :=
      parse_trace_ok_some_inv h
    subst ht
    constructor
    · simpa [assemble_trace] using
        (@overall_status_failed_iff steps)
    · rcases overall_status_ok_or_failed steps with hok | hf
      · exact .inr (by simpa [assemble_trace] using hok)
      · exact .inl (by simpa [assemble_trace] using hf)
  · intro steps h
    refine overall_status_ok_of (fun s hs => ?_)
    rcases h s hs with h1 | h1 | h1 <;> simp [h1]

/-- Witness for C5: a concrete trace with an error-tagged span has status
failed. -/
theorem C5_witness :
    (trace_of (parse_trace "aiai" [failed_trace_data "w5"])).status
      = .FAILED := by
  have h := (C5_status_aggregation.1 "aiai" [failed_trace_data "w5"]
    (trace_of (parse_trace "aiai" [failed_trace_data "w5"])) rfl).1
  exact h.mpr (by decide)

/-- C4 counterexample: two well-formed spans sharing a start time, fed in the
two input orders, yield differently ordered step sequences (the sort is
stable, so ties keep backend order and are not permutation invariant). -/
theorem C4_counterexample :
    ([tie_span_a, tie_span_b] : List RawSpan).Perm [tie_span_b, tie_span_a]
      ∧ tie_span_a.startTime = tie_span_b.startTime
      ∧ parse_spans_to_steps [tie_span_a, tie_span_b] ()
          ≠ parse_spans_to_steps [tie_span_b, tie_span_a] () := by
  refine ⟨by decide, rfl, by decide⟩

/-- C4 amended: every reconstructed Trace's Steps are non-decreasing by start
time, and step extraction is invariant under permutation of the input span
sequence whenever the spans' start times are pairwise distinct (ties are
broken by backend order instead). -/
theorem C4_amended_step_ordering :
    (∀ (sn : String) (data : List RawTraceData) (t : TraceResponse),
        parse_trace sn data = .ok (some t) →
        t.steps.Pairwise (fun a b => a.start_time ≤ b.start_time))
      ∧ (∀ (spans : List RawSpan) (steps : List TraceStep),
          parse_spans_to_steps spans () = .ok steps →
          steps.Pairwise (fun a b => a.start_time ≤ b.start_time))
      ∧ (∀ spans1 spans2 : List RawSpan,
          spans1.Perm spans2 →
          spans1.Pairwise (fun a b => start_key a ≠ start_key b) →
          parse_spans_to_steps spans1 () = parse_spans_to_steps spans2 ()) := by
  refine ⟨?_, ?_, ?_⟩
  · intro sn data t h
    obtain ⟨td, tl, s0, rest, root0, steps, -, -, -, hsteps, ht⟩ :=
      parse_trace_ok_some_inv h
    subst ht
    simpa [assemble_trace] using parse_spans_to_steps_sorted hsteps
  · exact fun spans steps h => parse_spans_to_steps_sorted h
  · intro s1 s2 hp hd
    unfold parse_spans_to_steps
    rw [insertion_sort_eq_of_perm_of_distinct hp hd]

/-- Witness for C4: two spans with distinct start times give the same steps in
either input order. -/
theorem C4_witness :
    parse_spans_to_steps [sample_ok_span "w4", sample_failed_span "w4"] ()
      = parse_spans_to_steps [sample_failed_span "w4", sample_ok_span "w4"] () :=
  C4_amended_step_ordering.2.2 _ _ (by decide) (by decide)

/-- C6 counterexample: root identification does fail on a non-empty span set
when a span lacks its spanID (the set comprehension of line 216 raises
KeyError). -/
theorem C6_counterexample :
    ([no_id_span_c6] : List RawSpan) ≠ []
      ∧ find_root_span [no_id_span_c6] = .error () := by
  exact ⟨by decide, by decide⟩

/-- C6 amended: provided every span carries a spanID, root identification
never fails on a non-empty span set; if every span's CHILD_OF parent
references name no identifier inside the set, the first span in input order
is selected as root and supplies operation name, request_id and user_id; and
when no span qualifies, reconstruction falls back to the first span in
backend order for those fields. -/
theorem C6_amended_root_identification :
    (∀ spans : List RawSpan, spans ≠ [] →
        (∀ s ∈ spans, s.spanID.isSome = true) →
        ∃ r, find_root_span spans = .ok r)
      ∧ (∀ (sn : String) (td : RawTraceData) (tl : List RawTraceData)
          (s0 : RawSpan) (rest : List RawSpan),
          td.spans = s0 :: rest →
          (∀ s ∈ s0 :: rest, s.spanID.isSome = true) →
          (∀ s ∈ s0 :: rest, ∀ r ∈ child_of_refs s,
            ∀ s2 ∈ s0 :: rest, r.spanID ≠ s2.spanID) →
          find_root_span (s0 :: rest) = .ok (some s0)
            ∧ (∀ t, parse_trace sn (td :: tl) = .ok (some t) →
                t.operation = s0.operationName
                  ∧ t.request_id = py_or_str (extract_tag s0 "request_id")
                      (td.traceID.getD "")
                  ∧ t.user_id = py_or_str_opt (extract_tag s0 "user_id")
                      (extract_tag s0 "user")))
      ∧ (∀ (sn : String) (td : RawTraceData) (tl : List RawTraceData)
          (s0 : RawSpan) (rest : List RawSpan) (t : TraceResponse),
          td.spans = s0 :: rest →
          find_root_span (s0 :: rest) = .ok none →
          parse_trace sn (td :: tl) = .ok (some t) →
          t.operation = s0.operationName
            ∧ t.request_id = py_or_str (extract_tag s0 "request_id")
                (td.traceID.getD "")
            ∧ t.user_id = py_or_str_opt (extract_tag s0 "user_id")
                (extract_tag s0 "user")) := by
  refine ⟨?_, ?_, ?_⟩
  · intro spans _ hid
    obtain ⟨ids, -, hr⟩ := find_root_span_ok_of_ids hid
    exact ⟨_, hr⟩
  · intro sn td tl s0 rest hsp hid hno
    have hroot : find_root_span (s0 :: rest) = .ok (some s0) := by
      refine find_root_span_first hid (fun r hr i hri s2 hs2 hsid => ?_)
      exact hno s0 (List.mem_cons_self s0 rest) r hr s2 hs2
        (hri.trans hsid.symm)
    refine ⟨hroot, fun t ht => ?_⟩
    obtain ⟨td', tl', s0', rest', root0, steps, heq, hspans, hr', hsteps, ht'⟩ :=
      parse_trace_ok_some_inv ht
    injection heq with h1 h2
    subst h1
    rw [hsp] at hspans
    injection hspans with h3 h4
    subst h3
    subst h4
    have hro : (some s0 : Option RawSpan) = root0 := by
      have h5 := hroot.symm.trans hr'
      injection h5
    subst ht'
    rw [← hro]
    exact ⟨by simp [assemble_trace], by simp [assemble_trace],
      by simp [assemble_trace]⟩
  · intro sn td tl s0 rest t hsp hnone ht
    obtain ⟨td', tl', s0', rest', root0, steps, heq, hspans, hr', hsteps, ht'⟩ :=
      parse_trace_ok_some_inv ht
    injection heq with h1 h2
    subst h1
    rw [hsp] at hspans
    injection hspans with h3 h4
    subst h3
    subst h4
    have hro : (none : Option RawSpan) = root0 := by
      have h5 := hnone.symm.trans hr'
      injection h5
    subst ht'
    rw [← hro]
    exact ⟨by simp [assemble_trace], by simp [assemble_trace],
      by simp [assemble_trace]⟩

/-- Witness for C6: two spans whose CHILD_OF parents both point outside the
set; the first span is selected as root. -/
theorem C6_witness :
    find_root_span [orphan_span_a, orphan_span_b] = .ok (some orphan_span_a) := by
  exact (C6_amended_root_identification.2.1 "aiai"
    ⟨some "tw6", [orphan_span_a, orphan_span_b]⟩ []
    orphan_span_a [orphan_span_b] rfl (by decide) (by decide)).1

/-- C7 counterexample: a non-empty span set does not always yield a Trace:
a span missing its spanID makes reconstruction raise instead. -/
theorem C7_counterexample :
    no_id_trace_data.spans ≠ []
      ∧ parse_trace "aiai" [no_id_trace_data] = .error () := by
  exact ⟨by decide, by decide⟩

/-- C7 amended: reconstruction returns NotFound iff the data list is empty or
its first blob has an empty span set; and for every non-empty span set of
well-formed spans (spanID present, tag and log-field entries complete) it
returns exactly one Trace whose Step count equals the input span count. -/
theorem C7_amended_notfound_iff :
    (∀ (sn : String) (data : List RawTraceData),
        parse_trace sn data = .ok none ↔
          (data = [] ∨ ∃ td tl, data = td :: tl ∧ td.spans = []))
      ∧ (∀ (sn : String) (td : RawTraceData) (tl : List RawTraceData),
          td.spans ≠ [] → (∀ s ∈ td.spans, WellFormedSpan s) →
          ∃ t, parse_trace sn (td :: tl) = .ok (some t)
            ∧ t.steps.length = td.spans.length) := by
  constructor
  · intro sn data
    cases data with
    | nil => simp [parse_trace]
    | cons td tl =>
      cases hs : td.spans with
      | nil =>
        constructor
        · intro _
          exact .inr ⟨td, tl, rfl, hs⟩
        · intro _
          simp [parse_trace, hs]
      | cons s0 rest =>
        constructor
        · intro h
          exfalso
          cases h1 : find_root_span (s0 :: rest) with
          | error e => simp [parse_trace, hs, h1] at h
          | ok root0 =>
            cases h2 : parse_spans_to_steps (s0 :: rest) () with
            | error e => simp [parse_trace, hs, h1, h2] at h
            | ok steps => simp [parse_trace, hs, h1, h2] at h
        · rintro (h | ⟨td', tl', heq, hsp⟩)
          · exact absurd h (List.cons_ne_nil td tl)
          · injection heq with h1 h2
            subst h1
            rw [hs] at hsp
            exact absurd hsp (List.cons_ne_nil s0 rest)
  · intro sn td tl hne hwf
    exact parse_trace_ok_of_wf hne hwf

/-- Witness for C7: a concrete well-formed one-span blob reconstructs to a
Trace with exactly one Step. -/
theorem C7_witness :
    (trace_of (parse_trace "aiai" [ok_trace_data "w7"])).steps.length = 1 := by
  obtain ⟨t, ht, hlen⟩ := C7_amended_notfound_iff.2 "aiai" (ok_trace_data "w7")
    [] (by decide) (by decide)
  rw [ht]
  show t.steps.length = 1
  rw [hlen]
  decide

end AiaiWidget
